import Mathlib

/-!
# Verification of the wapc-go wazero engine

A shallow embedding of `engines/wazero/wazero.go` from the wapc-go
repository.  Go byte slices and strings are modelled as `List Nat`
(a Go string is a byte sequence); linear memory is a list of bytes;
a Go panic inside a host-import function is modelled as the `.error`
branch of `Except`, which in wazero unwinds the guest call and surfaces
from `guestCall.Call` as an engine-level error; `nil` slices and `nil`
errors are modelled with `Option`.  The `uint32` casts applied by the
source to stack parameters and lengths are kept as explicit `% 2^32`.
-/

namespace Wapc

/-- Bytes of a Go byte slice or string (`[]byte` / `string`). -/
abbrev Bytes := List Nat

/-- The byte sequence of a string literal from the Go source.  Every
literal appearing in wazero.go is ASCII, where codepoints and UTF-8 bytes
coincide. -/
def strBytes (s : String) : Bytes := s.data.map Char.toNat

instance exceptDecEq {ε α : Type} [DecidableEq ε] [DecidableEq α] :
    DecidableEq (Except ε α)
  | .error e1, .error e2 =>
    if h : e1 = e2 then isTrue (by rw [h])
    else isFalse (by intro hc; cases hc; exact h rfl)
  | .error _, .ok _ => isFalse (by intro hc; cases hc)
  | .ok _, .error _ => isFalse (by intro hc; cases hc)
  | .ok a1, .ok a2 =>
    if h : a1 = a2 then isTrue (by rw [h])
    else isFalse (by intro hc; cases hc; exact h rfl)

/-- A WebAssembly linear memory (wazero `api.Memory`): a contiguous byte
array. -/
structure Mem where
  data : Bytes
deriving DecidableEq

/-- wazero `Memory.Read(offset, byteCount)`: yields the byte range when
`[offset, offset+byteCount)` lies in bounds, and fails otherwise (no
partial reads). -/
def Mem.read (mem : Mem) (offset byteCount : Nat) : Option Bytes :=
  if offset + byteCount ≤ mem.data.length then
    some ((mem.data.drop offset).take byteCount)
  else
    none

/-- wazero `Memory.Write(offset, bytes)`: overwrites the byte range when it
lies in bounds and reports success; writes nothing otherwise. -/
def Mem.write (mem : Mem) (offset : Nat) (bytes : Bytes) : Mem × Bool :=
  if offset + bytes.length ≤ mem.data.length then
    (⟨mem.data.take offset ++ bytes ++ mem.data.drop (offset + bytes.length)⟩, true)
  else
    (mem, false)

/-- `requireRead` from wazero.go: reads like `api.Memory.Read` except that it
panics when the range is out of bounds.  The panic is the `.error` branch;
it carries the Go panic message `out of memory reading <fieldName>`. -/
def requireRead (mem : Mem) (fieldName : Bytes) (offset byteCount : Nat) :
    Except Bytes Bytes :=
  match mem.read offset byteCount with
  | some buf => .ok buf
  | none => .error (strBytes "out of memory reading " ++ fieldName)

/-- `requireReadString` from wazero.go: `string(requireRead(...))`.  A Go
string is its byte sequence, so the cast is the identity on `Bytes`. -/
def requireReadString (mem : Mem) (fieldName : Bytes) (offset byteCount : Nat) :
    Except Bytes Bytes :=
  requireRead mem fieldName offset byteCount

/-- The per-call `invokeContext` of wazero.go.  `guestErr` is a Go string
(empty when unset); the slice/error fields are `Option` (`none` = Go
`nil`). -/
structure invokeContext where
  operation : Bytes
  guestReq : Bytes
  guestResp : Option Bytes := none
  guestErr : Bytes := []
  hostResp : Option Bytes := none
  hostErr : Option Bytes := none
deriving DecidableEq

/-- `wapc.HostCallHandler`: `(binding, namespace, operation, payload) →
(response, error)`.  An error is modelled by its message bytes. -/
def HostCallHandler :=
  Bytes → Bytes → Bytes → Bytes → Option Bytes × Option Bytes

/-- The `wapcHost` record: the optional host-call handler and whether a
`wapc.Logger` is configured (the log sink itself is external). -/
structure wapcHost where
  callHandler : Option HostCallHandler
  logger : Bool

/-- `wapcHost.hostCall`, export `__host_call`.  Stack parameters are cast to
`uint32`.  With no invocation context bound or no handler configured it
returns 0 touching nothing; otherwise it reads the four argument fields,
invokes the handler, stores both results in the context, and returns 0 on
handler error and 1 on success.  Memory is never written. -/
def wapcHost.hostCall (w : wapcHost) (ic? : Option invokeContext) (m : Mem)
    (stack0 stack1 stack2 stack3 stack4 stack5 stack6 stack7 : Nat) :
    Except Bytes (Option invokeContext × Mem × Nat) :=
  let bindPtr := stack0 % 2 ^ 32
  let bindLen := stack1 % 2 ^ 32
  let nsPtr := stack2 % 2 ^ 32
  let nsLen := stack3 % 2 ^ 32
  let cmdPtr := stack4 % 2 ^ 32
  let cmdLen := stack5 % 2 ^ 32
  let payloadPtr := stack6 % 2 ^ 32
  let payloadLen := stack7 % 2 ^ 32
  match ic?, w.callHandler with
  | none, _ => .ok (none, m, 0)
  | some ic, none => .ok (some ic, m, 0)
  | some ic, some handler => do
    let binding ← requireReadString m (strBytes "binding") bindPtr bindLen
    let ns ← requireReadString m (strBytes "namespace") nsPtr nsLen
    let operation ← requireReadString m (strBytes "operation") cmdPtr cmdLen
    let payload ← requireRead m (strBytes "payload") payloadPtr payloadLen
    let r := handler binding ns operation payload
    .ok (some { ic with hostResp := r.1, hostErr := r.2 }, m,
         if r.2.isSome then 0 else 1)

/-- `wapcHost.consoleLog`, export `__console_log`.  The Go method ignores its
context argument (`_ context.Context`): the bound invocation context is
threaded through untouched.  When a logger is configured the message is read
from memory and passed to it (returned here as the logged message). -/
def wapcHost.consoleLog (w : wapcHost) (ic? : Option invokeContext) (m : Mem)
    (param0 param1 : Nat) :
    Except Bytes (Option invokeContext × Mem × Option Bytes) :=
  let ptr := param0 % 2 ^ 32
  let len := param1 % 2 ^ 32
  if w.logger then do
    let msg ← requireReadString m (strBytes "msg") ptr len
    .ok (ic?, m, some msg)
  else
    .ok (ic?, m, none)

/-- `wapcHost.guestRequest`, export `__guest_request`: writes the operation
name at `opPtr` (when non-empty) and the request payload at `ptr` (when
non-nil, modelled as non-empty).  No-op without a bound context. -/
def wapcHost.guestRequest (_w : wapcHost) (ic? : Option invokeContext)
    (m : Mem) (param0 param1 : Nat) : Option invokeContext × Mem :=
  let opPtr := param0 % 2 ^ 32
  let ptr := param1 % 2 ^ 32
  match ic? with
  | none => (none, m)
  | some ic =>
    let m1 := if ic.operation ≠ [] then (m.write opPtr ic.operation).1 else m
    let m2 := if ic.guestReq ≠ [] then (m1.write ptr ic.guestReq).1 else m1
    (some ic, m2)

/-- `wapcHost.hostResponse`, export `__host_response`: writes the stored
`hostResp` at `ptr` when one is set; no-op otherwise. -/
def wapcHost.hostResponse (_w : wapcHost) (ic? : Option invokeContext)
    (m : Mem) (param0 : Nat) : Option invokeContext × Mem :=
  let ptr := param0 % 2 ^ 32
  match ic? with
  | none => (none, m)
  | some ic =>
    match ic.hostResp with
    | none => (some ic, m)
    | some hostResp => (some ic, (m.write ptr hostResp).1)

/-- `wapcHost.hostResponseLen`, export `__host_response_len`: the length of
the stored `hostResp` as a `uint32`, or 0 when unset or no context. -/
def wapcHost.hostResponseLen (_w : wapcHost) (ic? : Option invokeContext) :
    Nat :=
  match ic? with
  | none => 0
  | some ic =>
    match ic.hostResp with
    | none => 0
    | some hostResp => hostResp.length % 2 ^ 32

/-- `wapcHost.guestResponse`, export `__guest_response`: reads `len` bytes at
`ptr` and stores them as the call's `guestResp`.  No-op without a bound
context. -/
def wapcHost.guestResponse (_w : wapcHost) (ic? : Option invokeContext)
    (m : Mem) (param0 param1 : Nat) :
    Except Bytes (Option invokeContext × Mem) :=
  let ptr := param0 % 2 ^ 32
  let len := param1 % 2 ^ 32
  match ic? with
  | none => .ok (none, m)
  | some ic => do
    let buf ← requireRead m (strBytes "guestResp") ptr len
    .ok (some { ic with guestResp := some buf }, m)

/-- `wapcHost.guestError`, export `__guest_error`: reads `len` bytes at `ptr`
as text and stores them as the call's `guestErr`.  No-op without a bound
context. -/
def wapcHost.guestError (_w : wapcHost) (ic? : Option invokeContext)
    (m : Mem) (param0 param1 : Nat) :
    Except Bytes (Option invokeContext × Mem) :=
  let ptr := param0 % 2 ^ 32
  let len := param1 % 2 ^ 32
  match ic? with
  | none => .ok (none, m)
  | some ic => do
    let buf ← requireReadString m (strBytes "guestErr") ptr len
    .ok (some { ic with guestErr := buf }, m)

/-- `wapcHost.hostError`, export `__host_error`: writes the textualization of
the stored `hostErr` at `ptr` when one is set; no-op otherwise. -/
def wapcHost.hostError (_w : wapcHost) (ic? : Option invokeContext)
    (m : Mem) (param0 : Nat) : Option invokeContext × Mem :=
  let ptr := param0 % 2 ^ 32
  match ic? with
  | none => (none, m)
  | some ic =>
    match ic.hostErr with
    | none => (some ic, m)
    | some hostErr => (some ic, (m.write ptr hostErr).1)

/-- `wapcHost.hostErrorLen`, export `__host_error_len`: the byte length of
the textualized `hostErr` as a `uint32`, or 0 when unset or no context. -/
def wapcHost.hostErrorLen (_w : wapcHost) (ic? : Option invokeContext) :
    Nat :=
  match ic? with
  | none => 0
  | some ic =>
    match ic.hostErr with
    | none => 0
    | some hostErr => hostErr.length % 2 ^ 32

/-- The behaviour of a guest's exported `__guest_call` during one `Invoke`:
it receives the bound invocation context and the instance's linear memory
(standing for the sequence of wapc host-import calls the guest makes),
and either traps/panics with an engine-level error or finishes with the
final context, memory, and its `i32` status. -/
def GuestFunc := invokeContext → Mem → Except Bytes (invokeContext × Mem × Nat)

/-- One lowercase-hex digit, per Go `strconv`'s `lowerhex` table. -/
def hexDigit (n : Nat) : Nat := if n < 10 then 48 + n else 87 + n

/-- Go `strconv.Quote` escaping of one byte, for ASCII byte strings: `"` and
`\` are backslash-escaped, printable ASCII passes through, the named control
escapes apply, and the rest become `\xhh`.  (The Go source formats the
operation with `%q`; multi-byte UTF-8 runes, which no theorem below relies
on, are escaped here rather than passed through.) -/
def goQuoteChar (b : Nat) : Bytes :=
  if b = 34 then [92, 34]
  else if b = 92 then [92, 92]
  else if 32 ≤ b ∧ b ≤ 126 then [b]
  else if b = 7 then [92, 97]
  else if b = 8 then [92, 98]
  else if b = 12 then [92, 102]
  else if b = 10 then [92, 110]
  else if b = 13 then [92, 114]
  else if b = 9 then [92, 116]
  else if b = 11 then [92, 118]
  else [92, 120, hexDigit (b / 16 % 16), hexDigit (b % 16)]

/-- Go `%q` of a byte string: surrounding double quotes around the escaped
characters. -/
def goQuote (s : Bytes) : Bytes := 34 :: (s.map goQuoteChar).flatten ++ [34]

/-- The `Instance` of wazero.go: its textual name, the one-shot `closed`
flag, the cached `__guest_call` export, and its linear memory (the engine
module handle). -/
structure Instance where
  name : Bytes
  closed : Nat
  guestCall : GuestFunc
  mem : Mem

/-- `Instance.Invoke`: refuse when closed; bind a fresh `invokeContext`
carrying the operation and payload; run `__guest_call`; wrap an engine-level
error; return `guestErr` as the error when the guest set one (regardless of
the numeric result); on result 1 return `guestResp`; otherwise return the
`call to %q was unsuccessful` error.  The Go `([]byte, error)` pair is the
returned `Option Bytes × Option Bytes`. -/
def Instance.Invoke (i : Instance) (operation payload : Bytes) :
    Option Bytes × Option Bytes :=
  if i.closed ≠ 0 then
    (none, some (strBytes "error invoking guest with closed instance"))
  else
    let ic : invokeContext := { operation := operation, guestReq := payload }
    match i.guestCall ic i.mem with
    | .error e => (none, some (strBytes "error invoking guest: " ++ e))
    | .ok (ic2, _, result) =>
      if ic2.guestErr ≠ [] then (none, some ic2.guestErr)
      else if result = 1 then (ic2.guestResp, none)
      else (none, some (strBytes "call to " ++ goQuote operation ++
                        strBytes " was unsuccessful"))

/-- `Instance.Close`: one-shot atomic CAS on `closed`; the engine-level
module close is modelled as succeeding (its error, if any, is
engine-external). -/
def Instance.Close (i : Instance) : Instance × Option Bytes :=
  if i.closed ≠ 0 then (i, none)
  else ({ i with closed := 1 }, none)

/-- The engine-level result of `runtime.InstantiateModule`: a module handle
whose `__guest_call` export may be absent, plus its linear memory. -/
structure EngineModule where
  guestCall : Option GuestFunc
  mem : Mem

/-- The `Module` of wazero.go: the monotonic instance counter (a `uint64`),
the one-shot `closed` flag, and the engine's instantiation of the compiled
artifact under a given module name (runtime + compiled + config). -/
structure Module where
  instanceCounter : Nat
  closed : Nat
  runtimeInstantiate : Bytes → Except Bytes EngineModule

/-- `Module.Instantiate`: refuse when closed; bump the `uint64` counter and
use its decimal text as the instance name; instantiate the compiled
artifact; require the `__guest_call` export, failing with a message naming
the instance and the export when absent.  The updated module (the bumped
counter) is returned alongside the result. -/
def Module.Instantiate (m : Module) : Module × Except Bytes Instance :=
  if m.closed ≠ 0 then
    (m, .error (strBytes "cannot Instantiate when a module is closed"))
  else
    let counter := (m.instanceCounter + 1) % 2 ^ 64
    let moduleName := strBytes (Nat.repr counter)
    let m2 := { m with instanceCounter := counter }
    match m.runtimeInstantiate moduleName with
    | .error e => (m2, .error e)
    | .ok em =>
      match em.guestCall with
      | none =>
        (m2, .error (strBytes "module " ++ moduleName ++
                     strBytes " didn't export function " ++
                     strBytes "__guest_call"))
      | some g =>
        (m2, .ok { name := moduleName, closed := 0, guestCall := g,
                   mem := em.mem })

/-- `Module.Close`: one-shot atomic CAS on `closed`; tearing down the engine
runtime is modelled as succeeding (its error, if any, is engine-external). -/
def Module.Close (m : Module) : Module × Option Bytes :=
  if m.closed ≠ 0 then (m, none)
  else ({ m with closed := 1 }, none)

/-- `n` successive `Instantiate` calls, threading the module state (the
counter advances whether or not a call yields an instance, as in the
source). -/
def instantiateSeq (m : Module) : Nat → Module
  | 0 => m
  | n + 1 => ((instantiateSeq m n).Instantiate).1

/-- A handler modelling spec scenario S4: it returns the response `OK` and
no error. -/
def okHandler : HostCallHandler := fun _ _ _ _ => (some (strBytes "OK"), none)

/-- A handler modelling spec scenario S5: it returns no response and the
error `nope`. -/
def failHandler : HostCallHandler :=
  fun _ _ _ _ => (none, some (strBytes "nope"))

/-- A guest that performs no host-import calls and returns the given
status. -/
def idleGuest (status : Nat) : GuestFunc := fun ic m => .ok (ic, m, status)

/-- A guest modelling spec scenario S3: it commits an error via the
`__guest_error` host import (reading `len` bytes at `ptr` of its memory)
and then returns the given status. -/
def errGuest (w : wapcHost) (ptr len status : Nat) : GuestFunc := fun ic m =>
  match wapcHost.guestError w (some ic) m ptr len with
  | .error e => .error e
  | .ok (ic2?, m2) => .ok (ic2?.getD ic, m2, status)

/-- A guest modelling spec scenario S1 (echo): it pulls in its request via
the `__guest_request` host import (operation at `opPtr`, payload at `ptr`),
commits the payload bytes back via `__guest_response`, and returns 1. -/
def echoGuest (w : wapcHost) (opPtr ptr : Nat) : GuestFunc := fun ic m =>
  let m1 := (wapcHost.guestRequest w (some ic) m opPtr ptr).2
  match wapcHost.guestResponse w (some ic) m1 ptr ic.guestReq.length with
  | .error e => .error e
  | .ok (ic2?, m2) => .ok (ic2?.getD ic, m2, 1)

/-! ## Helper lemmas -/

lemma Mem.write_length (m : Mem) (offset : Nat) (bytes : Bytes) :
    ((m.write offset bytes).1).data.length = m.data.length := by
  unfold Mem.write
  split
  · simp only [List.length_append, List.length_take, List.length_drop]
    omega
  · rfl

lemma Mem.read_write_back (m : Mem) (offset : Nat) (bytes : Bytes)
    (h : offset + bytes.length ≤ m.data.length) :
    ((m.write offset bytes).1).read offset bytes.length = some bytes := by
  unfold Mem.write Mem.read
  rw [if_pos h]
  simp only
  rw [if_pos (by simp only [List.length_append, List.length_take,
    List.length_drop]; omega)]
  have ht : (m.data.take offset).length = offset := by
    simp only [List.length_take]; omega
  rw [List.append_assoc, List.drop_left' ht, List.take_left']
  exact rfl

lemma mem_read_length (m : Mem) (offset byteCount : Nat) (buf : Bytes)
    (h : m.read offset byteCount = some buf) : buf.length = byteCount := by
  unfold Mem.read at h
  split at h
  · cases h
    simp only [List.length_take, List.length_drop]
    omega
  · cases h

lemma goQuoteChar_printable (b : Nat) (h1 : 32 ≤ b) (h2 : b ≤ 126)
    (h3 : b ≠ 34) (h4 : b ≠ 92) : goQuoteChar b = [b] := by
  unfold goQuoteChar
  rw [if_neg h3, if_neg h4, if_pos ⟨h1, h2⟩]

lemma goQuote_printable (op : Bytes)
    (h : ∀ b ∈ op, 32 ≤ b ∧ b ≤ 126 ∧ b ≠ 34 ∧ b ≠ 92) :
    goQuote op = 34 :: op ++ [34] := by
  unfold goQuote
  have hq : (op.map goQuoteChar).flatten = op := by
    induction op with
    | nil => rfl
    | cons b t ih =>
      have hb := h b (List.mem_cons_self b t)
      have ht : ∀ x ∈ t, 32 ≤ x ∧ x ≤ 126 ∧ x ≠ 34 ∧ x ≠ 92 :=
        fun x hx => h x (List.mem_cons_of_mem b hx)
      simp only [List.map_cons, List.flatten_cons, ih ht,
        goQuoteChar_printable b hb.1 hb.2.1 hb.2.2.1 hb.2.2.2,
        List.singleton_append]
  rw [hq]

lemma unsuccessful_infix (pre q : Bytes) :
    strBytes "unsuccessful" <:+: pre ++ q ++ strBytes " was unsuccessful" := by
  refine ⟨pre ++ q ++ [32, 119, 97, 115, 32], [], ?_⟩
  have h : strBytes " was unsuccessful" =
      [32, 119, 97, 115, 32] ++ strBytes "unsuccessful" := by decide
  rw [h]
  simp [List.append_assoc]

lemma guestRequest_mem_length (w : wapcHost) (ic? : Option invokeContext)
    (m : Mem) (p0 p1 : Nat) :
    ((wapcHost.guestRequest w ic? m p0 p1).2).data.length = m.data.length := by
  cases ic? with
  | none => rfl
  | some ic =>
    simp only [wapcHost.guestRequest]
    by_cases h1 : ic.operation = [] <;> by_cases h2 : ic.guestReq = [] <;>
      simp [h1, h2, Mem.write_length]

lemma mem_read_zero (m : Mem) (offset : Nat) (h : offset ≤ m.data.length) :
    m.read offset 0 = some [] := by
  unfold Mem.read
  rw [if_pos (by omega)]
  simp

lemma guestRequest_read_payload (w : wapcHost) (ic : invokeContext)
    (m : Mem) (p0 p1 : Nat)
    (hfit : p1 % 2 ^ 32 + ic.guestReq.length ≤ m.data.length) :
    ((wapcHost.guestRequest w (some ic) m p0 p1).2).read (p1 % 2 ^ 32)
      ic.guestReq.length = some ic.guestReq := by
  have hm1 : (if ic.operation ≠ [] then (m.write (p0 % 2 ^ 32) ic.operation).1
      else m).data.length = m.data.length := by
    split
    · exact Mem.write_length m _ _
    · rfl
  by_cases h2 : ic.guestReq = []
  · have hlen := guestRequest_mem_length w (some ic) m p0 p1
    rw [h2]
    refine mem_read_zero _ _ ?_
    rw [hlen]
    rw [h2] at hfit
    simpa using hfit
  · have hsnd : (wapcHost.guestRequest w (some ic) m p0 p1).2 =
        ((if ic.operation ≠ [] then (m.write (p0 % 2 ^ 32) ic.operation).1
          else m).write (p1 % 2 ^ 32) ic.guestReq).1 := by
      simp only [wapcHost.guestRequest]
      rw [if_pos h2]
    rw [hsnd]
    refine Mem.read_write_back _ _ _ ?_
    rw [hm1]
    exact hfit

lemma Instantiate_fst (m : Module) (h : m.closed = 0) :
    (m.Instantiate).1 =
      { m with instanceCounter := (m.instanceCounter + 1) % 2 ^ 64 } := by
  unfold Module.Instantiate
  rw [if_neg (by omega)]
  simp only
  cases hri : m.runtimeInstantiate
      (strBytes (Nat.repr ((m.instanceCounter + 1) % 2 ^ 64))) with
  | error e => rfl
  | ok em =>
    obtain ⟨gc, emem⟩ := em
    cases gc <;> rfl

lemma instantiateSeq_state (m : Module) (hcl : m.closed = 0)
    (hc : m.instanceCounter = 0) :
    ∀ n, n < 2 ^ 64 →
      (instantiateSeq m n).closed = 0 ∧
      (instantiateSeq m n).instanceCounter = n := by
  intro n
  induction n with
  | zero => intro _; exact ⟨hcl, hc⟩
  | succ k ih =>
    intro hk
    obtain ⟨h1, h2⟩ := ih (by omega)
    simp only [instantiateSeq, Instantiate_fst (instantiateSeq m k) h1, h2]
    exact ⟨h1, Nat.mod_eq_of_lt hk⟩

lemma hostCall_run (w : wapcHost) (h : HostCallHandler) (ic : invokeContext)
    (mem : Mem) (s0 s1 s2 s3 s4 s5 s6 s7 : Nat)
    (binding ns oper payload : Bytes)
    (hw : w.callHandler = some h)
    (h0 : mem.read (s0 % 2 ^ 32) (s1 % 2 ^ 32) = some binding)
    (h1 : mem.read (s2 % 2 ^ 32) (s3 % 2 ^ 32) = some ns)
    (h2 : mem.read (s4 % 2 ^ 32) (s5 % 2 ^ 32) = some oper)
    (h3 : mem.read (s6 % 2 ^ 32) (s7 % 2 ^ 32) = some payload) :
    wapcHost.hostCall w (some ic) mem s0 s1 s2 s3 s4 s5 s6 s7 =
      .ok (some { ic with hostResp := (h binding ns oper payload).1,
                          hostErr := (h binding ns oper payload).2 }, mem,
           if (h binding ns oper payload).2.isSome then 0 else 1) := by
  simp only [wapcHost.hostCall, hw, requireReadString, requireRead,
    h0, h1, h2, h3]
  rfl

/-! ## Claim theorems -/

/-- C1: for every `Invoke` call in which the guest sets a non-empty
`guestErr` (via `__guest_error`) and `__guest_call` returns without an
engine-level error, `Invoke` returns an error whose message equals the
guest's error text exactly, regardless of the numeric status the guest
returned. -/
theorem guest_error_passthrough (i : Instance) (op payload : Bytes)
    (ic2 : invokeContext) (m2 : Mem) (res : Nat)
    (hopen : i.closed = 0)
    (hrun : i.guestCall { operation := op, guestReq := payload } i.mem =
      .ok (ic2, m2, res))
    (herr : ic2.guestErr ≠ []) :
    i.Invoke op payload = (none, some ic2.guestErr) := by
  unfold Instance.Invoke
  rw [if_neg (by omega)]
  simp only [hrun, if_pos herr]

theorem guest_error_passthrough_witness :
    Instance.Invoke
      ⟨strBytes "1", 0, errGuest ⟨none, false⟩ 0 3 2, ⟨strBytes "bad"⟩⟩
      (strBytes "x") [] = (none, some (strBytes "bad")) :=
  guest_error_passthrough _ _ _
    { operation := strBytes "x", guestReq := [], guestErr := strBytes "bad" }
    ⟨strBytes "bad"⟩ 2 rfl (by decide) (by decide)

/-- C2, counterexample: a guest that returns status 0 with no response and
no error under operation name `a"b` makes `Invoke` return the generic
unsuccessful error, but — because the source formats the operation with
`%q`, which backslash-escapes the double quote — the error message does not
contain the operation name, contradicting the claim as stated. -/
theorem unsuccessful_message_counterexample :
    (Instance.Invoke ⟨strBytes "1", 0, idleGuest 0, ⟨[]⟩⟩
        (strBytes "a\"b") []).2 =
      some (strBytes "call to " ++ goQuote (strBytes "a\"b") ++
        strBytes " was unsuccessful") ∧
    ¬ (strBytes "a\"b" <:+:
        strBytes "call to " ++ goQuote (strBytes "a\"b") ++
          strBytes " was unsuccessful") :=
  ⟨by decide, by decide⟩

/-- C2, amended: for every `Invoke` call where `__guest_call` returns
without an engine-level error and `guestErr` is empty: if the returned
status equals 1, `Invoke` returns the stored `guestResp` (possibly empty)
and no error; if the status is any other value, `Invoke` returns an error
whose message contains the word "unsuccessful" and the Go `%q`-quotation of
the operation name — and contains the operation name itself whenever the
name consists of printable ASCII characters other than the double quote and
the backslash. -/
theorem invoke_result_interpretation (i : Instance) (op payload : Bytes)
    (ic2 : invokeContext) (m2 : Mem) (res : Nat)
    (hopen : i.closed = 0)
    (hrun : i.guestCall { operation := op, guestReq := payload } i.mem =
      .ok (ic2, m2, res))
    (hnoerr : ic2.guestErr = []) :
    (res = 1 → i.Invoke op payload = (ic2.guestResp, none)) ∧
    (res ≠ 1 →
      i.Invoke op payload =
        (none, some (strBytes "call to " ++ goQuote op ++
          strBytes " was unsuccessful")) ∧
      strBytes "unsuccessful" <:+:
        strBytes "call to " ++ goQuote op ++ strBytes " was unsuccessful" ∧
      ((∀ b ∈ op, 32 ≤ b ∧ b ≤ 126 ∧ b ≠ 34 ∧ b ≠ 92) →
        op <:+:
          strBytes "call to " ++ goQuote op ++
            strBytes " was unsuccessful")) := by
  constructor
  · intro h1
    unfold Instance.Invoke
    rw [if_neg (by omega)]
    simp only [hrun, hnoerr, ne_eq, not_true_eq_false, if_false, h1, if_pos]
  · intro h1
    refine ⟨?_, unsuccessful_infix _ _, ?_⟩
    · unfold Instance.Invoke
      rw [if_neg (by omega)]
      simp only [hrun, hnoerr, ne_eq, not_true_eq_false, if_false,
        if_neg h1]
    · intro hp
      rw [goQuote_printable op hp]
      exact ⟨strBytes "call to " ++ [34],
        [34] ++ strBytes " was unsuccessful", by simp⟩

theorem invoke_result_interpretation_witness :
    Instance.Invoke ⟨strBytes "1", 0, idleGuest 0, ⟨[]⟩⟩ (strBytes "q") [] =
      (none, some (strBytes "call to " ++ goQuote (strBytes "q") ++
        strBytes " was unsuccessful")) :=
  ((invoke_result_interpretation ⟨strBytes "1", 0, idleGuest 0, ⟨[]⟩⟩
    (strBytes "q") [] { operation := strBytes "q", guestReq := [] } ⟨[]⟩ 0
    rfl rfl rfl).2 (by decide)).1

/-- C9: every memory read performed by a host-import function goes through
`requireRead`/`requireReadString`; when `[offset, offset + len)` does not
lie wholly inside the linear-memory bounds they raise the fatal panic
(modelled as the `.error` branch) whose message names the field being read,
and otherwise they yield exactly `len` bytes — never an ordinary error
value and never a partial read. -/
theorem require_read_bounds (mem : Mem) (f : Bytes) (off cnt : Nat) :
    (mem.data.length < off + cnt →
      requireRead mem f off cnt =
        .error (strBytes "out of memory reading " ++ f) ∧
      requireReadString mem f off cnt =
        .error (strBytes "out of memory reading " ++ f)) ∧
    (off + cnt ≤ mem.data.length →
      ∃ buf, requireRead mem f off cnt = .ok buf ∧ buf.length = cnt) := by
  constructor
  · intro h
    have hc : ¬ (off + cnt ≤ mem.data.length) := by omega
    unfold requireReadString requireRead Mem.read
    rw [if_neg hc]
    exact ⟨rfl, rfl⟩
  · intro h
    refine ⟨(mem.data.drop off).take cnt, ?_, ?_⟩
    · unfold requireRead Mem.read
      rw [if_pos h]
    · simp only [List.length_take, List.length_drop]
      omega

theorem require_read_bounds_witness :
    (requireRead ⟨[10, 20, 30]⟩ (strBytes "payload") 2 2 =
      .error (strBytes "out of memory reading " ++ strBytes "payload")) ∧
    (∃ buf, requireRead ⟨[10, 20, 30]⟩ (strBytes "payload") 1 2 =
      .ok buf ∧ buf.length = 2) :=
  ⟨((require_read_bounds ⟨[10, 20, 30]⟩ (strBytes "payload") 2 2).1
      (by decide)).1,
   (require_read_bounds ⟨[10, 20, 30]⟩ (strBytes "payload") 1 2).2
      (by decide)⟩

/-- C3: `__host_call` with a bound invocation context and a configured
handler reads the four argument fields from linear memory and invokes the
handler once; a handler error is stored in the context with return value 0,
otherwise the response bytes are stored with return value 1; with no bound
context or no configured handler it returns 0 without reading memory or
mutating any state. -/
theorem host_call_semantics (w : wapcHost) (ic : invokeContext) (mem : Mem)
    (s0 s1 s2 s3 s4 s5 s6 s7 : Nat) (h : HostCallHandler)
    (binding ns oper payload : Bytes) :
    wapcHost.hostCall w none mem s0 s1 s2 s3 s4 s5 s6 s7 =
      .ok (none, mem, 0) ∧
    (w.callHandler = none →
      wapcHost.hostCall w (some ic) mem s0 s1 s2 s3 s4 s5 s6 s7 =
        .ok (some ic, mem, 0)) ∧
    (w.callHandler = some h →
      mem.read (s0 % 2 ^ 32) (s1 % 2 ^ 32) = some binding →
      mem.read (s2 % 2 ^ 32) (s3 % 2 ^ 32) = some ns →
      mem.read (s4 % 2 ^ 32) (s5 % 2 ^ 32) = some oper →
      mem.read (s6 % 2 ^ 32) (s7 % 2 ^ 32) = some payload →
      wapcHost.hostCall w (some ic) mem s0 s1 s2 s3 s4 s5 s6 s7 =
        .ok (some { ic with hostResp := (h binding ns oper payload).1,
                            hostErr := (h binding ns oper payload).2 }, mem,
             if (h binding ns oper payload).2.isSome then 0 else 1)) := by
  refine ⟨?_, ?_, ?_⟩
  · cases hw : w.callHandler <;> simp [wapcHost.hostCall, hw]
  · intro hw
    simp [wapcHost.hostCall, hw]
  · intro hw h0 h1 h2 h3
    exact hostCall_run w h ic mem s0 s1 s2 s3 s4 s5 s6 s7
      binding ns oper payload hw h0 h1 h2 h3

theorem host_call_semantics_witness :
    wapcHost.hostCall ⟨some okHandler, false⟩
      (some { operation := [], guestReq := [] }) ⟨[1, 2, 3, 4]⟩
      0 1 1 1 2 1 3 1 =
    .ok (some { operation := [], guestReq := [],
                hostResp := some (strBytes "OK"), hostErr := none },
         ⟨[1, 2, 3, 4]⟩, 1) :=
  (host_call_semantics ⟨some okHandler, false⟩
    { operation := [], guestReq := [] } ⟨[1, 2, 3, 4]⟩ 0 1 1 1 2 1 3 1
    okHandler [1] [2] [3] [4]).2.2 rfl (by decide) (by decide) (by decide)
    (by decide)

/-- C4: when, during an `Invoke`, the `HostCallHandler` returns an error
`E`, `__host_call` returns 0 to the guest, a subsequent `__host_error_len`
returns the byte length of `E`'s textualization, and `__host_error` writes
exactly that textualization into linear memory at the given (in-bounds)
pointer. -/
theorem host_error_visibility (w : wapcHost) (h : HostCallHandler)
    (ic : invokeContext) (mem : Mem) (s0 s1 s2 s3 s4 s5 s6 s7 : Nat)
    (binding ns oper payload : Bytes) (resp : Option Bytes) (e : Bytes)
    (hw : w.callHandler = some h)
    (h0 : mem.read (s0 % 2 ^ 32) (s1 % 2 ^ 32) = some binding)
    (h1 : mem.read (s2 % 2 ^ 32) (s3 % 2 ^ 32) = some ns)
    (h2 : mem.read (s4 % 2 ^ 32) (s5 % 2 ^ 32) = some oper)
    (h3 : mem.read (s6 % 2 ^ 32) (s7 % 2 ^ 32) = some payload)
    (hcall : h binding ns oper payload = (resp, some e))
    (hlen : e.length < 2 ^ 32) :
    wapcHost.hostCall w (some ic) mem s0 s1 s2 s3 s4 s5 s6 s7 =
      .ok (some { ic with hostResp := resp, hostErr := some e }, mem, 0) ∧
    wapcHost.hostErrorLen w
      (some { ic with hostResp := resp, hostErr := some e }) = e.length ∧
    (∀ p : Nat, p % 2 ^ 32 + e.length ≤ mem.data.length →
      (wapcHost.hostError w
          (some { ic with hostResp := resp, hostErr := some e }) mem p).2.data =
        mem.data.take (p % 2 ^ 32) ++ e ++
          mem.data.drop (p % 2 ^ 32 + e.length)) := by
  refine ⟨?_, ?_, ?_⟩
  · rw [hostCall_run w h ic mem s0 s1 s2 s3 s4 s5 s6 s7
      binding ns oper payload hw h0 h1 h2 h3, hcall]
    rfl
  · simp only [wapcHost.hostErrorLen]
    exact Nat.mod_eq_of_lt hlen
  · intro p hp
    simp only [wapcHost.hostError, Mem.write]
    rw [if_pos hp]

theorem host_error_visibility_witness :
    wapcHost.hostCall ⟨some failHandler, false⟩
      (some { operation := [], guestReq := [] }) ⟨[0, 0, 0, 0]⟩
      0 0 0 0 0 0 0 0 =
      .ok (some { operation := [], guestReq := [], hostResp := none,
                  hostErr := some (strBytes "nope") }, ⟨[0, 0, 0, 0]⟩, 0) ∧
    wapcHost.hostErrorLen ⟨some failHandler, false⟩
      (some { operation := [], guestReq := [], hostResp := none,
              hostErr := some (strBytes "nope") }) =
      (strBytes "nope").length ∧
    (wapcHost.hostError ⟨some failHandler, false⟩
        (some { operation := [], guestReq := [], hostResp := none,
                hostErr := some (strBytes "nope") }) ⟨[0, 0, 0, 0]⟩
        0).2.data =
      [0, 0, 0, 0].take 0 ++ strBytes "nope" ++ [0, 0, 0, 0].drop 4 := by
  have ht := host_error_visibility ⟨some failHandler, false⟩ failHandler
    { operation := [], guestReq := [] } ⟨[0, 0, 0, 0]⟩ 0 0 0 0 0 0 0 0
    [] [] [] [] none (strBytes "nope") rfl (by decide) (by decide)
    (by decide) (by decide) rfl (by decide)
  exact ⟨ht.1, ht.2.1, ht.2.2 0 (by decide)⟩

/-- C10: every `__host_call` executed with a bound invocation context and a
configured handler overwrites both `hostResp` and `hostErr` with exactly the
handler's two return values, whatever the context previously held; hence
after a successful host call `__host_error_len` returns 0 even if an
earlier host call failed, and after a failing host call
`__host_response_len` reflects the failing handler's (possibly absent)
response. -/
theorem host_call_overwrites (w : wapcHost) (h : HostCallHandler)
    (ic : invokeContext) (mem : Mem) (s0 s1 s2 s3 s4 s5 s6 s7 : Nat)
    (binding ns oper payload : Bytes) (r e : Option Bytes)
    (hw : w.callHandler = some h)
    (h0 : mem.read (s0 % 2 ^ 32) (s1 % 2 ^ 32) = some binding)
    (h1 : mem.read (s2 % 2 ^ 32) (s3 % 2 ^ 32) = some ns)
    (h2 : mem.read (s4 % 2 ^ 32) (s5 % 2 ^ 32) = some oper)
    (h3 : mem.read (s6 % 2 ^ 32) (s7 % 2 ^ 32) = some payload)
    (hres : h binding ns oper payload = (r, e)) :
    wapcHost.hostCall w (some ic) mem s0 s1 s2 s3 s4 s5 s6 s7 =
      .ok (some { ic with hostResp := r, hostErr := e }, mem,
           if e.isSome then 0 else 1) ∧
    (e = none →
      wapcHost.hostErrorLen w (some { ic with hostResp := r, hostErr := e })
        = 0) ∧
    (e ≠ none →
      wapcHost.hostResponseLen w
          (some { ic with hostResp := r, hostErr := e }) =
        Option.elim r 0 (fun br => br.length % 2 ^ 32)) := by
  refine ⟨?_, ?_, ?_⟩
  · rw [hostCall_run w h ic mem s0 s1 s2 s3 s4 s5 s6 s7
      binding ns oper payload hw h0 h1 h2 h3, hres]
  · intro he
    simp [wapcHost.hostErrorLen, he]
  · intro _
    cases r <;> simp [wapcHost.hostResponseLen]

theorem host_call_overwrites_witness :
    wapcHost.hostCall ⟨some okHandler, false⟩
      (some { operation := [], guestReq := [], hostResp := some [9],
              hostErr := some (strBytes "old") }) ⟨[]⟩ 0 0 0 0 0 0 0 0 =
      .ok (some { operation := [], guestReq := [],
                  hostResp := some (strBytes "OK"), hostErr := none },
           ⟨[]⟩, 1) ∧
    wapcHost.hostErrorLen ⟨some okHandler, false⟩
      (some { operation := [], guestReq := [],
              hostResp := some (strBytes "OK"), hostErr := none }) = 0 := by
  have ht := host_call_overwrites ⟨some okHandler, false⟩ okHandler
    { operation := [], guestReq := [], hostResp := some [9],
      hostErr := some (strBytes "old") } ⟨[]⟩ 0 0 0 0 0 0 0 0
    [] [] [] [] (some (strBytes "OK")) none rfl (by decide) (by decide)
    (by decide) (by decide) rfl
  exact ⟨ht.1, ht.2.1 rfl⟩

lemma echoGuest_run (w : wapcHost) (ic : invokeContext) (mem : Mem)
    (opPtr ptr : Nat)
    (hlen : ic.guestReq.length % 2 ^ 32 = ic.guestReq.length)
    (hfit : ptr % 2 ^ 32 + ic.guestReq.length ≤ mem.data.length) :
    echoGuest w opPtr ptr ic mem =
      .ok ({ ic with guestResp := some ic.guestReq },
           (wapcHost.guestRequest w (some ic) mem opPtr ptr).2, 1) := by
  have hread := guestRequest_read_payload w ic mem opPtr ptr hfit
  simp only [echoGuest, wapcHost.guestResponse, requireRead, hlen, hread]
  rfl

lemma invoke_success (i : Instance) (op payload : Bytes)
    (ic2 : invokeContext) (m2 : Mem)
    (hopen : i.closed = 0)
    (hrun : i.guestCall { operation := op, guestReq := payload } i.mem =
      .ok (ic2, m2, 1))
    (hnoerr : ic2.guestErr = []) :
    i.Invoke op payload = (ic2.guestResp, none) := by
  unfold Instance.Invoke
  rw [if_neg (by omega)]
  simp only [hrun, hnoerr, ne_eq, not_true_eq_false, if_false, if_pos]

/-- C5: for every operation name `op` and payload `p`, a guest that stores
back exactly its request bytes via `__guest_response` during the call makes
`Invoke(op, p)` return exactly `p` and no error, provided the payload
region lies inside the guest's linear memory. -/
theorem echo_round_trip (w : wapcHost) (nm op p : Bytes) (opPtr ptr : Nat)
    (mem : Mem)
    (hsize : mem.data.length < 2 ^ 32)
    (hfit : ptr + p.length ≤ mem.data.length) :
    Instance.Invoke ⟨nm, 0, echoGuest w opPtr ptr, mem⟩ op p =
      (some p, none) := by
  have hptr : ptr % 2 ^ 32 = ptr := Nat.mod_eq_of_lt (by omega)
  have hplen : p.length % 2 ^ 32 = p.length := Nat.mod_eq_of_lt (by omega)
  exact invoke_success ⟨nm, 0, echoGuest w opPtr ptr, mem⟩ op p
    { operation := op, guestReq := p, guestResp := some p } _ rfl
    (echoGuest_run w { operation := op, guestReq := p } mem opPtr ptr hplen
      (by rw [hptr]; exact hfit)) rfl

theorem echo_round_trip_witness :
    Instance.Invoke ⟨strBytes "1", 0, echoGuest ⟨none, false⟩ 0 4,
      ⟨[0, 0, 0, 0, 0, 0, 0]⟩⟩ (strBytes "echo") [1, 2, 3] =
      (some [1, 2, 3], none) :=
  echo_round_trip ⟨none, false⟩ (strBytes "1") (strBytes "echo") [1, 2, 3]
    0 4 ⟨[0, 0, 0, 0, 0, 0, 0]⟩ (by decide) (by decide)

/-- C6: invoking any of the nine wapc host-import functions with no bound
invocation context leaves the context absent and the linear memory
unchanged, and the three value-returning imports return 0 (`__console_log`,
which does not consult the context at all, also leaves both untouched on
any successful run, whatever it logged). -/
theorem absent_context_inertness (w : wapcHost) (mem : Mem)
    (s0 s1 s2 s3 s4 s5 s6 s7 : Nat) :
    wapcHost.hostCall w none mem s0 s1 s2 s3 s4 s5 s6 s7 =
      .ok (none, mem, 0) ∧
    (∀ ic2 m2 msg, wapcHost.consoleLog w none mem s0 s1 = .ok (ic2, m2, msg) →
      ic2 = none ∧ m2 = mem) ∧
    wapcHost.guestRequest w none mem s0 s1 = (none, mem) ∧
    wapcHost.hostResponse w none mem s0 = (none, mem) ∧
    wapcHost.hostResponseLen w none = 0 ∧
    wapcHost.guestResponse w none mem s0 s1 = .ok (none, mem) ∧
    wapcHost.guestError w none mem s0 s1 = .ok (none, mem) ∧
    wapcHost.hostError w none mem s0 = (none, mem) ∧
    wapcHost.hostErrorLen w none = 0 := by
  refine ⟨?_, ?_, rfl, rfl, rfl, rfl, rfl, rfl, rfl⟩
  · cases hw : w.callHandler <;> simp [wapcHost.hostCall, hw]
  · intro ic2 m2 msg hlog
    unfold wapcHost.consoleLog at hlog
    by_cases hl : w.logger
    · rw [if_pos hl] at hlog
      cases hr : requireReadString mem (strBytes "msg") (s0 % 2 ^ 32)
          (s1 % 2 ^ 32) with
      | error e => rw [hr] at hlog; cases hlog
      | ok m =>
        rw [hr] at hlog
        cases hlog
        exact ⟨rfl, rfl⟩
    · rw [if_neg hl] at hlog
      cases hlog
      exact ⟨rfl, rfl⟩

theorem absent_context_inertness_witness :
    wapcHost.hostCall ⟨some okHandler, true⟩ none ⟨[104, 105]⟩
      0 2 0 0 0 0 0 0 = .ok (none, ⟨[104, 105]⟩, 0) ∧
    ((none : Option invokeContext) = none ∧ Mem.mk [104, 105] = ⟨[104, 105]⟩) :=
  ⟨(absent_context_inertness ⟨some okHandler, true⟩ ⟨[104, 105]⟩
      0 2 0 0 0 0 0 0).1,
   (absent_context_inertness ⟨some okHandler, true⟩ ⟨[104, 105]⟩
      0 2 0 0 0 0 0 0).2.1 none ⟨[104, 105]⟩ (some [104, 105]) (by decide)⟩

/-- C7: for every module, successive `Instantiate` calls yield instances
whose names are the decimal text of consecutive positive integers starting
at 1: starting from a fresh module, the call in position `n + 1` (below the
`uint64` wrap) yields, when it succeeds, an instance named by the decimal
text of `n + 1`. -/
theorem instance_naming (m : Module) (n : Nat) (inst : Instance)
    (hcl : m.closed = 0) (hc : m.instanceCounter = 0) (hn : n + 1 < 2 ^ 64)
    (hok : ((instantiateSeq m n).Instantiate).2 = .ok inst) :
    inst.name = strBytes (Nat.repr (n + 1)) := by
  obtain ⟨h1, h2⟩ := instantiateSeq_state m hcl hc n (by omega)
  unfold Module.Instantiate at hok
  rw [if_neg (by omega)] at hok
  simp only [h2, Nat.mod_eq_of_lt hn] at hok
  cases hri : (instantiateSeq m n).runtimeInstantiate
      (strBytes (Nat.repr (n + 1))) with
  | error e => rw [hri] at hok; cases hok
  | ok em =>
    obtain ⟨gc, emem⟩ := em
    rw [hri] at hok
    cases gc with
    | none => cases hok
    | some g =>
      cases hok
      rfl

theorem instance_naming_witness :
    (⟨strBytes "1", 0, idleGuest 0, ⟨[]⟩⟩ : Instance).name =
      strBytes (Nat.repr (0 + 1)) :=
  instance_naming ⟨0, 0, fun _ => .ok ⟨some (idleGuest 0), ⟨[]⟩⟩⟩ 0
    ⟨strBytes "1", 0, idleGuest 0, ⟨[]⟩⟩ rfl rfl (by decide) rfl

/-- C8: `Close` leaves the one-shot `closed` flag set, a closed module
refuses `Instantiate` (leaving the module unchanged), and a closed instance
refuses `Invoke`; since every operation preserves a set flag, all further
operations after a `Close` fail. -/
theorem post_close_rejection (m : Module) (i : Instance)
    (op payload : Bytes) :
    ((m.Close).1).closed ≠ 0 ∧
    (m.closed ≠ 0 →
      m.Instantiate =
        (m, .error (strBytes "cannot Instantiate when a module is closed"))) ∧
    (m.closed ≠ 0 → (m.Close).1 = m) ∧
    ((i.Close).1).closed ≠ 0 ∧
    (i.closed ≠ 0 →
      i.Invoke op payload =
        (none, some (strBytes "error invoking guest with closed instance"))) ∧
    (i.closed ≠ 0 → (i.Close).1 = i) := by
  refine ⟨?_, ?_, ?_, ?_, ?_, ?_⟩
  · unfold Module.Close
    by_cases h : m.closed = 0 <;> simp [h]
  · intro h
    unfold Module.Instantiate
    rw [if_pos h]
  · intro h
    unfold Module.Close
    rw [if_pos h]
  · unfold Instance.Close
    by_cases h : i.closed = 0 <;> simp [h]
  · intro h
    unfold Instance.Invoke
    rw [if_pos h]
  · intro h
    unfold Instance.Close
    rw [if_pos h]

theorem post_close_rejection_witness :
    (⟨1, 1, fun _ => .error []⟩ : Module).Instantiate =
      (⟨1, 1, fun _ => .error []⟩,
       .error (strBytes "cannot Instantiate when a module is closed")) ∧
    (⟨strBytes "1", 1, idleGuest 1, ⟨[]⟩⟩ : Instance).Invoke [] [] =
      (none, some (strBytes "error invoking guest with closed instance")) :=
  ⟨(post_close_rejection ⟨1, 1, fun _ => .error []⟩
      ⟨strBytes "1", 1, idleGuest 1, ⟨[]⟩⟩ [] []).2.1 (by decide),
   (post_close_rejection ⟨1, 1, fun _ => .error []⟩
      ⟨strBytes "1", 1, idleGuest 1, ⟨[]⟩⟩ [] []).2.2.2.2.1 (by decide)⟩

end Wapc
